import Mathlib

/-!
Shallow embedding of `scripts/convert_xml_doc_to_styled_html.py`, an XML
documentation to styled HTML converter.  XML element trees are modelled by
`Element`, Python `html.escape` by `html_escape`, Python `str.strip` by
`pyStrip`, and the conversion driver's filesystem effects by an
association list from paths to file contents.  XML parsing itself
(`xml.etree.ElementTree.parse`) is library code outside the repository and
is modelled as an abstract `parse` function handed to the driver.
-/

/-- An XML element as exposed by `xml.etree.ElementTree`: a tag, an
attribute dictionary, the text preceding the first child (`.text`,
`none` when absent), and the list of child elements in document order. -/
inductive Element : Type where
  | mk (tag : String) (attrib : List (String × String)) (text : Option String)
      (children : List Element)

def Element.tag : Element → String
  | .mk t _ _ _ => t

def Element.attrib : Element → List (String × String)
  | .mk _ a _ _ => a

def Element.text : Element → Option String
  | .mk _ _ x _ => x

def Element.children : Element → List Element
  | .mk _ _ _ cs => cs

mutual

/-- All elements of the subtree rooted at `e`, in document (preorder) order. -/
def subtreeElems (e : Element) : List Element :=
  match e with
  | .mk t a x cs => .mk t a x cs :: subtreeForest cs

/-- All elements of the subtrees rooted in `es`, in document order. -/
def subtreeForest : List Element → List Element
  | [] => []
  | e :: es => subtreeElems e ++ subtreeForest es

end

/-- `root.findall(".//member")`: every element tagged `member` strictly below
`root`, at any depth, in document order. -/
def findallMembers (root : Element) : List Element :=
  (subtreeForest root.children).filter (fun e => e.tag == "member")

/-- One character's image under Python `html.escape` (with `quote=True`, the
default used by the script).  `html.escape` performs sequential
`str.replace` calls for `&`, `<`, `>`, `"`, `'` in that order; because `&`
is replaced first and no later replacement output contains a character that
a later pass replaces, the sequential replaces coincide with this
independent per-character map. -/
def escapeChar (c : Char) : List Char :=
  if c = '&' then ['&', 'a', 'm', 'p', ';']
  else if c = '<' then ['&', 'l', 't', ';']
  else if c = '>' then ['&', 'g', 't', ';']
  else if c = '"' then ['&', 'q', 'u', 'o', 't', ';']
  else if c = '\x27' then ['&', '#', 'x', '2', '7', ';']
  else [c]

def escapeData (l : List Char) : List Char := l.flatMap escapeChar

/-- Python `html.escape(s)` with default `quote=True`. -/
def html_escape (s : String) : String := ⟨escapeData s.data⟩

/-- Whitespace in the sense of Python `str.strip()` (ASCII range). -/
def isPySpace (c : Char) : Bool :=
  c == ' ' || c == '\t' || c == '\n' || c == '\x0b' || c == '\x0c' || c == '\r'

/-- Python `s.strip()`: drop leading and trailing whitespace. -/
def pyStrip (s : String) : String :=
  ⟨((s.data.dropWhile isPySpace).reverse.dropWhile isPySpace).reverse⟩

/-- The fixed placeholder fragment emitted when a member has no usable
summary text (line 90 of the script). -/
def noSummaryHtml : String := "<span class=\"no-summary\">No summary available.</span>"

/-- `extract_member_info`: member name from the `name` attribute (defaulting
to `"Unknown"`), and summary HTML.  The summary branch mirrors
`if summary_elem is not None and summary_elem.text:` — the raw `.text` must
be present and non-empty (Python truthiness) before it is stripped and
escaped; otherwise the placeholder is used. -/
def extract_member_info (member_element : Element) : String × String :=
  let name := (member_element.attrib.lookup "name").getD "Unknown"
  let summary_elem := member_element.children.find? (fun c => c.tag == "summary")
  let summary :=
    match summary_elem with
    | some se =>
      match se.text with
      | some t => if t ≠ "" then html_escape (pyStrip t) else noSummaryHtml
      | none => noSummaryHtml
    | none => noSummaryHtml
  (name, summary)

/-- `get_css_styles`: the fixed CSS block returned by the script. -/
def get_css_styles : String := "
        body \x7b
            font-family: \x27Segoe UI\x27, Tahoma, Geneva, Verdana, sans-serif;
            margin: 2em;
            background-color: #f8f9fa;
            color: #333;
            line-height: 1.6;
        \x7d

        h1 \x7b
            color: #0d47a1;
            border-bottom: 2px solid #1976d2;
            padding-bottom: 0.3em;
            margin-bottom: 1em;
        \x7d

        h2 \x7b
            color: #1565c0;
            margin-top: 1.5em;
            margin-bottom: 0.5em;
        \x7d

        p \x7b
            margin: 0.5em 0 1em;
            line-height: 1.6;
        \x7d

        .member-block \x7b
            background-color: #ffffff;
            border-left: 4px solid #42a5f5;
            padding: 1em;
            margin: 1em 0;
            box-shadow: 0 2px 4px rgba(0,0,0,0.05);
            border-radius: 4px;
        \x7d

        code \x7b
            background-color: #eceff1;
            padding: 0.2em 0.4em;
            border-radius: 3px;
            font-family: \x27Consolas\x27, \x27Monaco\x27, \x27Courier New\x27, monospace;
            font-size: 0.9em;
        \x7d

        .member-name \x7b
            font-family: \x27Consolas\x27, \x27Monaco\x27, \x27Courier New\x27, monospace;
            font-size: 0.9em;
            color: #424242;
        \x7d

        .no-summary \x7b
            color: #757575;
            font-style: italic;
        \x7d
    "

/-- The opening line of a member block as emitted by `generate_html_content`. -/
def divOpenLine : String := "    <div class=\x27member-block\x27>"

/-- The lines `generate_html_content` appends for one member element,
with `name` and `summary` the two components of `extract_member_info`. -/
def memberBlock (m : Element) : List String :=
  [divOpenLine,
   "        <h2><code class=\x27member-name\x27>" ++ html_escape (extract_member_info m).1
     ++ "</code></h2>",
   "        <p>" ++ (extract_member_info m).2 ++ "</p>",
   "    </div>"]

/-- The `html_parts` list assembled by `generate_html_content` before joining. -/
def generate_html_parts (xml_root : Element) (title : String) : List String :=
  ["<!DOCTYPE html>",
   "<html lang=\x27en\x27>",
   "<head>",
   "    <meta charset=\x27UTF-8\x27>",
   "    <meta name=\x27viewport\x27 content=\x27width=device-width, initial-scale=1.0\x27>",
   "    <title>" ++ html_escape title ++ "</title>",
   "    <style>",
   get_css_styles,
   "    </style>",
   "</head>",
   "<body>",
   "    <h1>" ++ html_escape title ++ "</h1>"]
  ++ (findallMembers xml_root).flatMap memberBlock
  ++ ["</body>", "</html>"]

/-- `generate_html_content`: the joined HTML document text. -/
def generate_html_content (xml_root : Element)
    (title : String := "NuGetInspectorApp Documentation") : String :=
  String.intercalate "\n" (generate_html_parts xml_root title)

/-- Outcome of one run of `convert_xml_to_html`: success (with the reported
output path and processed-member count), or one of the two error categories
the script distinguishes. -/
inductive ConvResult : Type where
  | ok (output_path : String) (member_count : Nat)
  | notFound (msg : String)
  | parseError (msg : String)
deriving DecidableEq

/-- `output_file.write_text(...)`: create or overwrite `path` in the
modelled filesystem. -/
def setFile (fs : List (String × String)) (path content : String) :
    List (String × String) :=
  (path, content) :: fs.filter (fun kv => !(kv.1 == path))

/-- `convert_xml_to_html`: check existence of the input, parse it, render,
and write the output; returns the filesystem after the call together with
the outcome.  `parse` abstracts `ET.parse`, failing exactly on input that
is not well-formed XML. -/
def convert_xml_to_html (fs : List (String × String))
    (parse : String → Except String Element)
    (input_path output_path : String) :
    List (String × String) × ConvResult :=
  match fs.lookup input_path with
  | none => (fs, .notFound ("Input file not found: " ++ input_path))
  | some contents =>
    match parse contents with
    | .error msg => (fs, .parseError msg)
    | .ok root =>
      (setFile fs output_path (generate_html_content root),
       .ok output_path (findallMembers root).length)

/-- One step-bounded pass of HTML unescaping: recognises the five entities
`html.escape` emits; a `&` that does not start one of them is kept
literally.  The first argument is a recursion bound; `unescapeData` always
supplies the length of the list, which suffices because every step consumes
at least one character. -/
def unescAux : Nat → List Char → List Char
  | 0, l => l
  | _ + 1, [] => []
  | fuel + 1, c :: rest =>
    if c = '&' then
      if ['a', 'm', 'p', ';'].isPrefixOf rest then '&' :: unescAux fuel (rest.drop 4)
      else if ['l', 't', ';'].isPrefixOf rest then '<' :: unescAux fuel (rest.drop 3)
      else if ['g', 't', ';'].isPrefixOf rest then '>' :: unescAux fuel (rest.drop 3)
      else if ['q', 'u', 'o', 't', ';'].isPrefixOf rest then '"' :: unescAux fuel (rest.drop 5)
      else if ['#', 'x', '2', '7', ';'].isPrefixOf rest then '\x27' :: unescAux fuel (rest.drop 5)
      else c :: unescAux fuel rest
    else c :: unescAux fuel rest

/-- Inverse of HTML escaping on the five entities `html.escape` emits:
parsing the emitted fragment back as HTML text, per the spec's round-trip
property. -/
def unescapeData (l : List Char) : List Char := unescAux l.length l

/-! ### Helper lemmas -/

theorem escapeData_cons (c : Char) (t : List Char) :
    escapeData (c :: t) = escapeChar c ++ escapeData t := by
  simp [escapeData]

theorem unescAux_escapeData (t : List Char) :
    ∀ n, (escapeData t).length ≤ n → unescAux n (escapeData t) = t := by
  induction t with
  | nil => intro n _; cases n <;> rfl
  | cons c t ih =>
    intro n hn
    rw [escapeData_cons] at hn ⊢
    by_cases h1 : c = '&'
    · subst h1
      rw [show escapeChar '&' ++ escapeData t = '&' :: 'a' :: 'm' :: 'p' :: ';' :: escapeData t
        from rfl] at hn ⊢
      simp only [List.length_cons] at hn
      obtain ⟨m, rfl⟩ : ∃ m, n = m + 1 := ⟨n - 1, by omega⟩
      simp only [unescAux, List.isPrefixOf, beq_self_eq_true, Bool.and_self,
        List.drop_succ_cons, List.drop_zero, reduceIte]
      rw [ih m (by omega)]
    · by_cases h2 : c = '<'
      · subst h2
        rw [show escapeChar '<' ++ escapeData t = '&' :: 'l' :: 't' :: ';' :: escapeData t
          from rfl] at hn ⊢
        simp only [List.length_cons] at hn
        obtain ⟨m, rfl⟩ : ∃ m, n = m + 1 := ⟨n - 1, by omega⟩
        simp only [unescAux, List.isPrefixOf, beq_self_eq_true, Bool.and_self,
          List.drop_succ_cons, List.drop_zero, reduceIte, Char.reduceBEq,
          Bool.false_and, Bool.and_false, Bool.false_eq_true, if_false]
        rw [ih m (by omega)]
      · by_cases h3 : c = '>'
        · subst h3
          rw [show escapeChar '>' ++ escapeData t = '&' :: 'g' :: 't' :: ';' :: escapeData t
            from rfl] at hn ⊢
          simp only [List.length_cons] at hn
          obtain ⟨m, rfl⟩ : ∃ m, n = m + 1 := ⟨n - 1, by omega⟩
          simp only [unescAux, List.isPrefixOf, beq_self_eq_true, Bool.and_self,
            List.drop_succ_cons, List.drop_zero, reduceIte, Char.reduceBEq,
            Bool.false_and, Bool.and_false, Bool.false_eq_true, if_false]
          rw [ih m (by omega)]
        · by_cases h4 : c = '"'
          · subst h4
            rw [show escapeChar '"' ++ escapeData t
                = '&' :: 'q' :: 'u' :: 'o' :: 't' :: ';' :: escapeData t from rfl] at hn ⊢
            simp only [List.length_cons] at hn
            obtain ⟨m, rfl⟩ : ∃ m, n = m + 1 := ⟨n - 1, by omega⟩
            simp only [unescAux, List.isPrefixOf, beq_self_eq_true, Bool.and_self,
              List.drop_succ_cons, List.drop_zero, reduceIte, Char.reduceBEq,
              Bool.false_and, Bool.and_false, Bool.false_eq_true, if_false]
            rw [ih m (by omega)]
          · by_cases h5 : c = '\x27'
            · subst h5
              rw [show escapeChar '\x27' ++ escapeData t
                  = '&' :: '#' :: 'x' :: '2' :: '7' :: ';' :: escapeData t from rfl] at hn ⊢
              simp only [List.length_cons] at hn
              obtain ⟨m, rfl⟩ : ∃ m, n = m + 1 := ⟨n - 1, by omega⟩
              simp only [unescAux, List.isPrefixOf, beq_self_eq_true, Bool.and_self,
                List.drop_succ_cons, List.drop_zero, reduceIte, Char.reduceBEq,
                Bool.false_and, Bool.and_false, Bool.false_eq_true, if_false]
              rw [ih m (by omega)]
            · have he : escapeChar c = [c] := by
                simp [escapeChar, h1, h2, h3, h4, h5]
              rw [he, List.singleton_append] at hn ⊢
              simp only [List.length_cons] at hn
              obtain ⟨m, rfl⟩ : ∃ m, n = m + 1 := ⟨n - 1, by omega⟩
              simp only [unescAux, if_neg h1]
              rw [ih m (by omega)]

theorem unescapeData_escapeData (l : List Char) :
    unescapeData (escapeData l) = l :=
  unescAux_escapeData l _ le_rfl

/-- Decomposition of a `stripAffixes` decode: strip a fixed prefix and suffix
from a character list, when both occur and do not overlap. -/
def stripAffixes (pre suf d : List Char) : Option (List Char) :=
  if pre <+: d ∧ suf <:+ d ∧ pre.length + suf.length ≤ d.length then
    some ((d.drop pre.length).take (d.length - pre.length - suf.length))
  else none

/-- Recover the escaped member name from a member-block heading line: the text
between the fixed \x3ch2\x3e opening markup and its closing markup.  Used to state
that the generated document contains one heading per member, in order. -/
def decodeH2 (s : String) : Option String :=
  (stripAffixes ("        <h2><code class=\x27member-name\x27>").data
    ("</code></h2>").data s.data).map fun l => ⟨l⟩

theorem stripAffixes_sandwich (pre suf x : List Char) :
    stripAffixes pre suf (pre ++ x ++ suf) = some x := by
  unfold stripAffixes
  have hpre : pre <+: pre ++ x ++ suf := by
    rw [List.append_assoc]; exact List.prefix_append _ _
  have hsuf : suf <:+ pre ++ x ++ suf := List.suffix_append _ _
  have hlen : pre.length + suf.length ≤ (pre ++ x ++ suf).length := by
    simp only [List.length_append]; omega
  rw [if_pos ⟨hpre, hsuf, hlen⟩]
  congr 1
  rw [List.append_assoc, List.drop_left]
  have hx : (pre ++ (x ++ suf)).length - pre.length - suf.length = x.length := by
    simp only [List.length_append]; omega
  rw [hx, List.take_left]

theorem stripAffixes_getElem_ne (pre suf d : List Char) (i : Nat) (hi : i < pre.length)
    (hne : d[i]? ≠ pre[i]?) : stripAffixes pre suf d = none := by
  unfold stripAffixes
  rw [if_neg]
  rintro ⟨⟨t, rfl⟩, -, -⟩
  exact hne (List.getElem?_append_left hi)

theorem append3_data_getElem (a x y : String) (i : Nat) (hi : i < a.data.length) :
    (a ++ x ++ y).data[i]? = a.data[i]? := by
  rw [String.data_append, String.data_append, List.append_assoc,
    List.getElem?_append_left hi]

theorem affix_ne_of_getElem (a x y t : String) (i : Nat) (hi : i < a.data.length)
    (h : a.data[i]? ≠ t.data[i]?) : a ++ x ++ y ≠ t := by
  intro he
  apply h
  rw [← append3_data_getElem a x y i hi, he]

theorem decodeH2_h2Line (x : String) :
    decodeH2 ("        <h2><code class=\x27member-name\x27>" ++ x ++ "</code></h2>")
      = some x := by
  unfold decodeH2
  rw [String.data_append, String.data_append, stripAffixes_sandwich]
  rfl

theorem decodeH2_affix_none (a x y : String) (i : Nat)
    (hpre : i < ("        <h2><code class=\x27member-name\x27>".data).length)
    (hia : i < a.data.length)
    (h : a.data[i]? ≠ ("        <h2><code class=\x27member-name\x27>".data)[i]?) :
    decodeH2 (a ++ x ++ y) = none := by
  unfold decodeH2
  rw [stripAffixes_getElem_ne _ _ _ i hpre]
  · rfl
  · rw [append3_data_getElem a x y i hia]
    exact h


theorem filterMap_decodeH2_memberBlock (m : Element) :
    (memberBlock m).filterMap decodeH2 = [html_escape (extract_member_info m).1] := by
  unfold memberBlock
  rw [List.filterMap_cons_none (by decide),
    List.filterMap_cons_some (decodeH2_h2Line _),
    List.filterMap_cons_none
      (decodeH2_affix_none "        <p>" _ "</p>" 9 (by decide) (by decide) (by decide)),
    List.filterMap_cons_none (by decide)]
  rfl

theorem count_divOpen_memberBlock (m : Element) :
    (memberBlock m).count divOpenLine = 1 := by
  unfold memberBlock
  have h2 : ("        <h2><code class=\x27member-name\x27>" ++ html_escape (extract_member_info m).1
      ++ "</code></h2>") ≠ divOpenLine :=
    affix_ne_of_getElem _ _ _ divOpenLine 4 (by decide) (by decide)
  have hp : ("        <p>" ++ (extract_member_info m).2 ++ "</p>") ≠ divOpenLine :=
    affix_ne_of_getElem _ _ _ divOpenLine 4 (by decide) (by decide)
  simp [List.count_cons, h2, hp]
  decide

theorem filterMap_decodeH2_flatMap (ms : List Element) :
    (ms.flatMap memberBlock).filterMap decodeH2
      = ms.map (fun m => html_escape (extract_member_info m).1) := by
  induction ms with
  | nil => rfl
  | cons m ms ih =>
    rw [List.flatMap_cons, List.filterMap_append, filterMap_decodeH2_memberBlock, ih,
      List.map_cons]
    rfl

theorem count_divOpen_flatMap (ms : List Element) :
    (ms.flatMap memberBlock).count divOpenLine = ms.length := by
  induction ms with
  | nil => rfl
  | cons m ms ih =>
    rw [List.flatMap_cons, List.count_append, count_divOpen_memberBlock, ih,
      List.length_cons]
    omega

theorem filterMap_decodeH2_parts (root : Element) (title : String) :
    (generate_html_parts root title).filterMap decodeH2
      = (findallMembers root).map (fun m => html_escape (extract_member_info m).1) := by
  unfold generate_html_parts
  rw [List.filterMap_append, List.filterMap_append]
  rw [List.filterMap_cons_none (by decide), List.filterMap_cons_none (by decide),
    List.filterMap_cons_none (by decide), List.filterMap_cons_none (by decide),
    List.filterMap_cons_none (by decide),
    List.filterMap_cons_none
      (decodeH2_affix_none "    <title>" _ "</title>" 4 (by decide) (by decide) (by decide)),
    List.filterMap_cons_none (by decide), List.filterMap_cons_none (by decide),
    List.filterMap_cons_none (by decide), List.filterMap_cons_none (by decide),
    List.filterMap_cons_none (by decide),
    List.filterMap_cons_none
      (decodeH2_affix_none "    <h1>" _ "</h1>" 4 (by decide) (by decide) (by decide)),
    List.filterMap_nil, filterMap_decodeH2_flatMap]
  rw [show (["</body>", "</html>"] : List String).filterMap decodeH2 = [] from by decide]
  simp

theorem count_divOpen_parts (root : Element) (title : String) :
    (generate_html_parts root title).count divOpenLine = (findallMembers root).length := by
  unfold generate_html_parts
  rw [List.count_append, List.count_append, count_divOpen_flatMap]
  have htitle : ("    <title>" ++ html_escape title ++ "</title>") ≠ divOpenLine :=
    affix_ne_of_getElem _ _ _ divOpenLine 5 (by decide) (by decide)
  have hh1 : ("    <h1>" ++ html_escape title ++ "</h1>") ≠ divOpenLine :=
    affix_ne_of_getElem _ _ _ divOpenLine 5 (by decide) (by decide)
  have hfoot : (["</body>", "</html>"] : List String).count divOpenLine = 0 := by decide
  rw [hfoot]
  simp [List.count_cons, htitle, hh1]
  decide

theorem mem_escapeChar_not_special {c d : Char} (hd : d ∈ escapeChar c) :
    d ≠ '<' ∧ d ≠ '>' ∧ d ≠ '"' ∧ d ≠ '\x27' := by
  unfold escapeChar at hd
  split at hd
  · simp at hd; rcases hd with rfl | rfl | rfl | rfl | rfl <;> decide
  · split at hd
    · simp at hd; rcases hd with rfl | rfl | rfl | rfl <;> decide
    · split at hd
      · simp at hd; rcases hd with rfl | rfl | rfl | rfl <;> decide
      · split at hd
        · simp at hd; rcases hd with rfl | rfl | rfl | rfl | rfl | rfl <;> decide
        · split at hd
          · simp at hd; rcases hd with rfl | rfl | rfl | rfl | rfl | rfl <;> decide
          · simp at hd
            subst hd
            refine ⟨?_, ?_, ?_, ?_⟩ <;> assumption

theorem mem_escapeData_not_special {l : List Char} {d : Char} (hd : d ∈ escapeData l) :
    d ≠ '<' ∧ d ≠ '>' ∧ d ≠ '"' ∧ d ≠ '\x27' := by
  unfold escapeData at hd
  rw [List.mem_flatMap] at hd
  obtain ⟨c, -, hc⟩ := hd
  exact mem_escapeChar_not_special hc

theorem html_escape_ne_noSummaryHtml (s : String) : html_escape s ≠ noSummaryHtml := by
  intro h
  have hlt : '<' ∈ (html_escape s).data := by rw [h]; decide
  exact (mem_escapeData_not_special hlt).1 rfl

theorem extract_snd_eq_escape (m se : Element) (t : String)
    (h1 : m.children.find? (fun c => c.tag == "summary") = some se)
    (h2 : se.text = some t) (h3 : t ≠ "") :
    (extract_member_info m).2 = html_escape (pyStrip t) := by
  unfold extract_member_info
  rw [h1]
  simp only [h2]
  rw [if_pos h3]

/-- The summary component of `extract_member_info` as a function of the
first direct `summary` child (the result of `member_element.find("summary")`). -/
def summaryHtmlFor (se? : Option Element) : String :=
  match se? with
  | some se =>
    match se.text with
    | some t => if t ≠ "" then html_escape (pyStrip t) else noSummaryHtml
    | none => noSummaryHtml
  | none => noSummaryHtml

theorem extract_snd_eq (m : Element) :
    (extract_member_info m).2
      = summaryHtmlFor (m.children.find? (fun c => c.tag == "summary")) := rfl

theorem extract_fst_eq (m : Element) :
    (extract_member_info m).1 = (m.attrib.lookup "name").getD "Unknown" := rfl

/-! ### Claims -/

/-- C1: every member element anywhere nested under the root produces exactly
one member block in the generated HTML, in document order: the member-heading
lines recovered from the parts list are exactly the escaped member names in
traversal order, and the number of member-block openings equals the number of
member nodes. -/
theorem c1_one_block_per_member_in_order (root : Element) (title : String) :
    (generate_html_parts root title).filterMap decodeH2
        = (findallMembers root).map (fun m => html_escape (extract_member_info m).1)
      ∧ (generate_html_parts root title).count divOpenLine
          = (findallMembers root).length :=
  ⟨filterMap_decodeH2_parts root title, count_divOpen_parts root title⟩

/-- C4: the identifier is the `name` attribute value when present, and the
literal `"Unknown"` otherwise. -/
theorem c4_name_attribute_or_unknown (m : Element) :
    (∀ v, m.attrib.lookup "name" = some v → (extract_member_info m).1 = v)
      ∧ (m.attrib.lookup "name" = none → (extract_member_info m).1 = "Unknown") := by
  constructor
  · intro v h
    rw [extract_fst_eq, h]
    rfl
  · intro h
    rw [extract_fst_eq, h]
    rfl

/-- Witness for C4 at a member carrying `name="M:Foo.Bar"` and at a member
with no attributes. -/
theorem c4_witness :
    (extract_member_info (.mk "member" [("name", "M:Foo.Bar")] none [])).1 = "M:Foo.Bar"
      ∧ (extract_member_info (.mk "member" [] none [])).1 = "Unknown" :=
  ⟨(c4_name_attribute_or_unknown _).1 _ rfl, (c4_name_attribute_or_unknown _).2 rfl⟩

/-- C5: when the input path names no existing file, the driver fails with the
NotFound-category error and the filesystem is unchanged (no output written). -/
theorem c5_missing_input_no_write (fs : List (String × String))
    (parse : String → Except String Element) (input_path output_path : String)
    (h : fs.lookup input_path = none) :
    convert_xml_to_html fs parse input_path output_path
      = (fs, .notFound ("Input file not found: " ++ input_path)) := by
  simp only [convert_xml_to_html, h]

/-- Witness for C5 on an empty filesystem. -/
theorem c5_witness :
    convert_xml_to_html [] (fun _ => .error "bad") "in.xml" "out.html"
      = ([], .notFound ("Input file not found: " ++ "in.xml")) :=
  c5_missing_input_no_write [] _ "in.xml" "out.html" rfl

/-- C6: when the input file exists but its content fails to parse, the driver
fails with the Parse-category error and the filesystem is unchanged (no
partial output written). -/
theorem c6_parse_error_no_write (fs : List (String × String))
    (parse : String → Except String Element) (input_path output_path : String)
    (contents msg : String)
    (h1 : fs.lookup input_path = some contents)
    (h2 : parse contents = .error msg) :
    convert_xml_to_html fs parse input_path output_path = (fs, .parseError msg) := by
  simp only [convert_xml_to_html, h1, h2]

/-- Witness for C6 on a one-file filesystem whose content the parser rejects. -/
theorem c6_witness :
    convert_xml_to_html [("doc.xml", "<doc")] (fun _ => .error "not well-formed")
        "doc.xml" "out.html"
      = ([("doc.xml", "<doc")], .parseError "not well-formed") :=
  c6_parse_error_no_write _ _ "doc.xml" "out.html" "<doc" "not well-formed" rfl rfl

/-- C7: a well-formed input with zero member nodes yields a document with no
member blocks, the escaped title as the top-level heading, and the full HTML
skeleton (doctype first, closing html tag last). -/
theorem c7_zero_members (root : Element) (title : String)
    (h : findallMembers root = []) :
    (generate_html_parts root title).count divOpenLine = 0
      ∧ ("    <h1>" ++ html_escape title ++ "</h1>") ∈ generate_html_parts root title
      ∧ (generate_html_parts root title).head? = some "<!DOCTYPE html>"
      ∧ (generate_html_parts root title).getLast? = some "</html>" := by
  refine ⟨?_, ?_, ?_, ?_⟩
  · rw [count_divOpen_parts, h]
    rfl
  · unfold generate_html_parts
    simp
  · unfold generate_html_parts
    rfl
  · unfold generate_html_parts
    rw [h]
    rfl

/-- Witness for C7 on a memberless document tree. -/
theorem c7_witness :
    (generate_html_parts (.mk "doc" [] none [.mk "assembly" [] none []]) "T").count
        divOpenLine = 0
      ∧ ("    <h1>" ++ html_escape "T" ++ "</h1>")
          ∈ generate_html_parts (.mk "doc" [] none [.mk "assembly" [] none []]) "T"
      ∧ (generate_html_parts (.mk "doc" [] none [.mk "assembly" [] none []]) "T").head?
          = some "<!DOCTYPE html>"
      ∧ (generate_html_parts (.mk "doc" [] none [.mk "assembly" [] none []]) "T").getLast?
          = some "</html>" :=
  c7_zero_members _ "T" rfl

/-- C8: on success the driver reports exactly as many processed members as
there are member-block openings in the document it emitted. -/
theorem c8_reported_count_matches_blocks (fs : List (String × String))
    (parse : String → Except String Element) (input_path output_path : String)
    (contents : String) (root : Element)
    (h1 : fs.lookup input_path = some contents)
    (h2 : parse contents = .ok root) :
    (convert_xml_to_html fs parse input_path output_path).2
      = .ok output_path
          ((generate_html_parts root "NuGetInspectorApp Documentation").count
            divOpenLine) := by
  simp only [convert_xml_to_html, h1, h2]
  rw [count_divOpen_parts]

/-- Witness for C8 on a two-member document. -/
theorem c8_witness :
    (convert_xml_to_html [("doc.xml", "x")]
        (fun _ => .ok (.mk "doc" [] none
          [.mk "members" [] none [.mk "member" [] none [], .mk "member" [] none []]]))
        "doc.xml" "out.html").2
      = .ok "out.html"
          ((generate_html_parts
              (.mk "doc" [] none
                [.mk "members" [] none [.mk "member" [] none [], .mk "member" [] none []]])
              "NuGetInspectorApp Documentation").count divOpenLine) :=
  c8_reported_count_matches_blocks _ _ "doc.xml" "out.html" "x" _ rfl rfl

/-- C10: the driver never passes a title, so the emitted document is rendered
with the fixed default title: the written file is exactly the rendering under
the default title, and the parts it joins contain the default title line and
the default top-level heading. -/
theorem c10_default_title (fs : List (String × String))
    (parse : String → Except String Element) (input_path output_path : String)
    (contents : String) (root : Element)
    (h1 : fs.lookup input_path = some contents)
    (h2 : parse contents = .ok root) :
    ((convert_xml_to_html fs parse input_path output_path).1.lookup output_path
        = some (generate_html_content root "NuGetInspectorApp Documentation"))
      ∧ "    <title>NuGetInspectorApp Documentation</title>"
          ∈ generate_html_parts root "NuGetInspectorApp Documentation"
      ∧ "    <h1>NuGetInspectorApp Documentation</h1>"
          ∈ generate_html_parts root "NuGetInspectorApp Documentation" := by
  refine ⟨?_, ?_, ?_⟩
  · simp only [convert_xml_to_html, h1, h2, setFile]
    rw [List.lookup]
    simp
  · rw [show "    <title>NuGetInspectorApp Documentation</title>"
        = "    <title>" ++ html_escape "NuGetInspectorApp Documentation" ++ "</title>"
      from by decide]
    unfold generate_html_parts
    simp
  · rw [show "    <h1>NuGetInspectorApp Documentation</h1>"
        = "    <h1>" ++ html_escape "NuGetInspectorApp Documentation" ++ "</h1>"
      from by decide]
    unfold generate_html_parts
    simp

/-- Witness for C10 on a one-member document. -/
theorem c10_witness :
    ((convert_xml_to_html [("doc.xml", "x")]
          (fun _ => .ok (.mk "doc" [] none [.mk "member" [] none []]))
          "doc.xml" "out.html").1.lookup "out.html"
        = some (generate_html_content (.mk "doc" [] none [.mk "member" [] none []])
            "NuGetInspectorApp Documentation"))
      ∧ "    <title>NuGetInspectorApp Documentation</title>"
          ∈ generate_html_parts (.mk "doc" [] none [.mk "member" [] none []])
              "NuGetInspectorApp Documentation"
      ∧ "    <h1>NuGetInspectorApp Documentation</h1>"
          ∈ generate_html_parts (.mk "doc" [] none [.mk "member" [] none []])
              "NuGetInspectorApp Documentation" :=
  c10_default_title _ _ "doc.xml" "out.html" "x" _ rfl rfl

/-- C2 counterexample: a member whose summary text is whitespace-only.  The
claim says this yields the placeholder, but the code tests the raw text for
emptiness before stripping, so it yields the escaped empty string instead. -/
theorem c2_counterexample :
    pyStrip "   " = ""
      ∧ (extract_member_info (.mk "member" [] none
            [.mk "summary" [] (some "   ") []])).2 = ""
      ∧ (extract_member_info (.mk "member" [] none
            [.mk "summary" [] (some "   ") []])).2 ≠ noSummaryHtml :=
  ⟨by decide, by decide, by decide⟩

/-- C2 (amended): the summary is the placeholder exactly when there is no
direct summary child, or its text is absent or empty before trimming; when
the raw text is non-empty (even if whitespace-only) the summary is the
escaped trimmed text. -/
theorem c2_placeholder_iff_no_raw_text (m : Element) :
    ((extract_member_info m).2 = noSummaryHtml ↔
      ∀ se ∈ m.children.find? (fun c => c.tag == "summary"), ∀ t ∈ se.text, t = "")
    ∧ ∀ se ∈ m.children.find? (fun c => c.tag == "summary"),
        ∀ t ∈ se.text, t ≠ "" → (extract_member_info m).2 = html_escape (pyStrip t) := by
  constructor
  · rw [extract_snd_eq]
    cases hfind : m.children.find? (fun c => c.tag == "summary") with
    | none => simp [summaryHtmlFor]
    | some se =>
      cases htext : se.text with
      | none => simp [summaryHtmlFor, htext]
      | some t =>
        by_cases ht : t = ""
        · subst ht
          simp [summaryHtmlFor, htext]
        · simp [summaryHtmlFor, htext, ht, html_escape_ne_noSummaryHtml]
  · intro se hse t hte hne
    exact extract_snd_eq_escape m se t (Option.mem_def.1 hse) (Option.mem_def.1 hte) hne

/-- Witness for C2 (amended) at a member with raw text `" Does a thing. "`. -/
theorem c2_witness :
    (extract_member_info (.mk "member" [] none
        [.mk "summary" [] (some " Does a thing. ") []])).2
      = html_escape (pyStrip " Does a thing. ") :=
  (c2_placeholder_iff_no_raw_text _).2 (.mk "summary" [] (some " Does a thing. ") [])
    rfl " Does a thing. " rfl (by decide)

/-- C3 counterexample: the claim as stated says unescaping the emitted summary
fragment reproduces the original literal summary text; for the summary text
`" a&b "` (which contains `&`) the emitted fragment unescapes to the trimmed
text `"a&b"`, not the original. -/
theorem c3_counterexample :
    ('&' ∈ " a&b ".data)
      ∧ unescapeData (extract_member_info (.mk "member" [] none
            [.mk "summary" [] (some " a&b ") []])).2.data ≠ " a&b ".data :=
  ⟨by decide, by decide⟩

/-- C3 (amended): for a member whose summary text contains a special
character, the emitted summary contains no raw `<`, `>`, `"` or `'`, and
unescaping it reproduces the summary text after trimming leading/trailing
whitespace. -/
theorem c3_escape_roundtrip (m se : Element) (t : String)
    (h1 : m.children.find? (fun c => c.tag == "summary") = some se)
    (h2 : se.text = some t) (h3 : t ≠ "")
    (_h4 : ∃ c ∈ t.data, c = '&' ∨ c = '<' ∨ c = '>' ∨ c = '"' ∨ c = '\x27') :
    (∀ c ∈ (extract_member_info m).2.data, c ≠ '<' ∧ c ≠ '>' ∧ c ≠ '"' ∧ c ≠ '\x27')
      ∧ unescapeData (extract_member_info m).2.data = (pyStrip t).data := by
  rw [extract_snd_eq_escape m se t h1 h2 h3]
  constructor
  · intro c hc
    exact mem_escapeData_not_special hc
  · exact unescapeData_escapeData _

/-- Witness for C3 (amended) at a member whose summary text is `"a<b"`. -/
theorem c3_witness :
    (∀ c ∈ (extract_member_info (.mk "member" [] none
          [.mk "summary" [] (some "a<b") []])).2.data,
        c ≠ '<' ∧ c ≠ '>' ∧ c ≠ '"' ∧ c ≠ '\x27')
      ∧ unescapeData (extract_member_info (.mk "member" [] none
            [.mk "summary" [] (some "a<b") []])).2.data = (pyStrip "a<b").data :=
  c3_escape_roundtrip _ (.mk "summary" [] (some "a<b") []) "a<b" rfl rfl
    (by decide) (by decide)

/-- C9: only a direct child tagged `summary` is consulted (a summary nested
deeper counts as absent, yielding the placeholder), and only the first direct
summary child matters: elements after it do not affect the result. -/
theorem c9_first_direct_summary_only :
    (∀ m : Element, (∀ c ∈ m.children, c.tag ≠ "summary") →
        (extract_member_info m).2 = noSummaryHtml)
      ∧ ∀ tg : String, ∀ attr : List (String × String), ∀ tx : Option String,
          ∀ pre : List Element, ∀ se : Element, ∀ post post' : List Element,
            (∀ c ∈ pre, c.tag ≠ "summary") → se.tag = "summary" →
            (extract_member_info (.mk tg attr tx (pre ++ se :: post))).2
              = (extract_member_info (.mk tg attr tx (pre ++ se :: post'))).2 := by
  constructor
  · intro m h
    rw [extract_snd_eq]
    have hfind : m.children.find? (fun c => c.tag == "summary") = none := by
      rw [List.find?_eq_none]
      intro c hc
      simpa using h c hc
    rw [hfind]
    rfl
  · intro tg attr tx pre se post post' hpre hse
    have hfind : ∀ post'' : List Element,
        ((Element.mk tg attr tx (pre ++ se :: post'')).children.find?
          (fun c => c.tag == "summary")) = some se := by
      intro post''
      show (pre ++ se :: post'').find? (fun c => c.tag == "summary") = some se
      rw [List.find?_append]
      have hnone : pre.find? (fun c => c.tag == "summary") = none := by
        rw [List.find?_eq_none]
        intro c hc
        simpa using hpre c hc
      rw [hnone, List.find?_cons_of_pos _ (by simpa using hse)]
      rfl
    rw [extract_snd_eq, extract_snd_eq, hfind post, hfind post']

/-- Witness for C9: a summary nested inside a wrapper child yields the
placeholder, and a second direct summary child does not change the result. -/
theorem c9_witness :
    (extract_member_info (.mk "member" [] none
        [.mk "wrapper" [] none [.mk "summary" [] (some "deep") []]])).2 = noSummaryHtml
      ∧ (extract_member_info (.mk "member" [] none
            [.mk "summary" [] (some "first") [],
             .mk "summary" [] (some "second") []])).2
          = (extract_member_info (.mk "member" [] none
              [.mk "summary" [] (some "first") []])).2 :=
  ⟨c9_first_direct_summary_only.1 _ (by decide),
   c9_first_direct_summary_only.2 "member" [] none []
     (.mk "summary" [] (some "first") []) [.mk "summary" [] (some "second") []] []
     (by decide) rfl⟩
